import Mathlib

/-!
Verification of the change-detection core of the claims agents.

The development shallowly embeds the state tracking and change detection of
two Python modules:

- `class_action_claims_agent.py` (`ClassActionClaimsAgent`), modelled in the
  `ClassAction` namespace: expired-claim detection against a persisted state
  file with an at-most-once `notified_expired_claims` bookkeeping list.
- `action_claims_agent.py` (`StateManager`, `EmailNotifier`,
  `ActionClaimsAgent`), modelled in the `ActionClaims` namespace: new-claim /
  newly-expired / new-payout detection against the previous snapshot.

Datetimes are modelled as integers (seconds since an epoch); a missing
(`None`) datetime is `none`.  Python dicts keyed by id are modelled as
association lists with python insertion semantics.  Fields that the modelled
logic never reads (titles, descriptions, urls, categories, amounts, severity
strings, rendered message text) are opaque payload and are omitted from the
records; every field the detection logic branches on is kept.
-/

namespace ClassAction

/-- Model of `class_action_claims_agent.Claim` restricted to the fields the
detection logic reads: `claim_id` and `filing_deadline`.  The remaining
constructor arguments (title, description, claim_amount, category, status,
claim_url, discovered_date) are carried verbatim by the Python code and never
branched on. -/
structure Claim where
  claim_id : String
  filing_deadline : Option Int
deriving Repr, DecidableEq

/-- Model of `class_action_claims_agent.Payout` restricted to the fields the
detection logic reads: `payout_id` and `announcement_date`. -/
structure Payout where
  payout_id : String
  announcement_date : Int
deriving Repr, DecidableEq

/-- Python `timedelta.days` of a difference of datetimes measured in seconds:
floor division by one day (86400 s), flooring toward minus infinity as Python
does. -/
def timedeltaDays (delta : Int) : Int := Int.fdiv delta 86400

/-- `Claim.is_expiring_soon`: a missing deadline returns `False`; otherwise
`0 < days_until_deadline <= days` where
`days_until_deadline = (filing_deadline - datetime.now()).days`. -/
def Claim.is_expiring_soon (c : Claim) (now days : Int) : Bool :=
  match c.filing_deadline with
  | none => false
  | some d => decide (0 < timedeltaDays (d - now) ∧ timedeltaDays (d - now) ≤ days)

/-- `Claim.is_expired`: a missing deadline returns `False`; otherwise
`datetime.now() > filing_deadline`. -/
def Claim.is_expired (c : Claim) (now : Int) : Bool :=
  match c.filing_deadline with
  | none => false
  | some d => decide (now > d)

/-- The state document written by `ClassActionClaimsAgent.save_current_state`
and read back by `load_previous_state`.  The stored claim and payout dicts
round-trip through `to_dict` / `from_dict` as the identity on the modelled
fields, so they are kept as lists of records. -/
structure AgentState where
  last_run : Int
  claims : List Claim
  payouts : List Payout
  notified_expired_claims : List String
deriving Repr, DecidableEq

/-- The `notified_expired_claims` list of a loaded state; an absent or
unparseable state file (`previous_state` falsy) contributes the empty list. -/
def stateNotified : Option AgentState → List String
  | none => []
  | some st => st.notified_expired_claims

/-- The stored claims of a loaded state. -/
def stateClaims : Option AgentState → List Claim
  | none => []
  | some st => st.claims

/-- One candidate test of `detect_expiring_claims` for a current claim: the
claim is expiring soon and either there is no previous state, or the previous
state's first stored claim with the same id (python `next(...)`) was not
already expiring soon. -/
def expiringCheck (now days : Int) (previous_state : Option AgentState)
    (c : Claim) : Bool :=
  c.is_expiring_soon now days &&
    match previous_state with
    | none => true
    | some st =>
      match st.claims.find? (fun p => p.claim_id == c.claim_id) with
      | none => true
      | some prev => !(prev.is_expiring_soon now days)

/-- `ClassActionClaimsAgent.detect_expiring_claims` over the current claims. -/
def detect_expiring_claims (now days : Int) (previous_state : Option AgentState)
    (current_claims : List Claim) : List Claim :=
  current_claims.filter (expiringCheck now days previous_state)

/-- What the first loop of `detect_expired_claims` does with one claim of the
previous state. -/
inductive PrevStep
  | skip
  | append
  | typeError
deriving Repr, DecidableEq

/-- Branch structure of the first loop of `detect_expired_claims` for a single
previous claim `pc`.  A previous claim whose id is in `notified_expired` is
skipped.  Otherwise the guard `not prev_claim.is_expired()` short-circuits
python's `and`: when it is truthy the raw comparison
`datetime.now() > prev_claim.filing_deadline` runs, which raises `TypeError`
when the stored deadline is `None`.  The `elif` arm appends the claim when it
is missing from the current fetch and its stored copy is expired. -/
def prevStep (now : Int) (notified current_ids : List String) (pc : Claim) :
    PrevStep :=
  if notified.contains pc.claim_id then .skip
  else if pc.is_expired now = false then
    match pc.filing_deadline with
    | none => .typeError
    | some d =>
      if now > d then .append
      else if !current_ids.contains pc.claim_id && pc.is_expired now then .append
      else .skip
  else if !current_ids.contains pc.claim_id && pc.is_expired now then .append
  else .skip

/-- First loop of `detect_expired_claims`, over the claims stored in the
previous state.  A `TypeError` aborts the whole detection. -/
def expiredFromPrev (now : Int) (notified current_ids : List String) :
    List Claim → Except String (List Claim)
  | [] => .ok []
  | pc :: rest =>
    match prevStep now notified current_ids pc with
    | .skip => expiredFromPrev now notified current_ids rest
    | .append => (expiredFromPrev now notified current_ids rest).map (pc :: ·)
    | .typeError => .error "TypeError: > not supported between datetime and NoneType"

/-- Test of the second loop of `detect_expired_claims` for a current claim:
not already notified, present in the previous state (dict lookup keeps the
last stored copy for an id), stored copy not expired, current copy expired. -/
def currentCheck (now : Int) (notified : List String) (prev_claims : List Claim)
    (c : Claim) : Bool :=
  !(notified.contains c.claim_id) &&
    match prev_claims.reverse.find? (fun p => p.claim_id == c.claim_id) with
    | none => false
    | some prev => !(prev.is_expired now) && c.is_expired now

/-- `ClassActionClaimsAgent.detect_expired_claims`: with no previous state the
result is empty; otherwise the first loop scans the stored claims and the
second loop scans the current claims, the two result lists concatenated in
append order. -/
def detect_expired_claims (now : Int) (previous_state : Option AgentState)
    (current_claims : List Claim) : Except String (List Claim) :=
  match previous_state with
  | none => .ok []
  | some st =>
    let notified := st.notified_expired_claims
    let current_ids := current_claims.map Claim.claim_id
    (expiredFromPrev now notified current_ids st.claims).map
      (fun l1 => l1 ++ current_claims.filter (currentCheck now notified st.claims))

/-- `ClassActionClaimsAgent.detect_new_payouts`: on the first run every
current payout is new; otherwise a payout is new when its id is not among the
previous state's payout ids. -/
def detect_new_payouts (previous_state : Option AgentState)
    (current_payouts : List Payout) : List Payout :=
  match previous_state with
  | none => current_payouts
  | some st =>
    current_payouts.filter
      (fun p => !((st.payouts.map Payout.payout_id).contains p.payout_id))

/-- Notification dicts produced by `generate_notifications`, restricted to the
`type` tag and the id field that `save_current_state` consults
(`notif['type']` and `notif['claim_id']` / `notif['payout_id']`); severity,
title, message and date strings are rendering-only payload. -/
inductive Notif
  | expiring_claim (claim_id : String)
  | expired_claim (claim_id : String)
  | new_payout (payout_id : String)
deriving Repr, DecidableEq

/-- `ClassActionClaimsAgent.generate_notifications`: expiring-claim, then
expired-claim, then new-payout notifications; a `TypeError` raised inside
`detect_expired_claims` propagates. -/
def generate_notifications (now expiring_window_days : Int)
    (previous_state : Option AgentState)
    (current_claims : List Claim) (current_payouts : List Payout) :
    Except String (List Notif) :=
  (detect_expired_claims now previous_state current_claims).map (fun expired =>
    (detect_expiring_claims now expiring_window_days previous_state
        current_claims).map (fun c => Notif.expiring_claim c.claim_id)
      ++ expired.map (fun c => Notif.expired_claim c.claim_id)
      ++ (detect_new_payouts previous_state current_payouts).map
          (fun p => Notif.new_payout p.payout_id))

/-- Loop of `save_current_state` extending the loaded
`notified_expired_claims` list: each `expired_claim` notification's id is
appended unless it is already present. -/
def addNotified (acc : List String) : List Notif → List String
  | [] => acc
  | Notif.expired_claim cid :: rest =>
    addNotified (if acc.contains cid then acc else acc ++ [cid]) rest
  | _ :: rest => addNotified acc rest

/-- `ClassActionClaimsAgent.save_current_state`: the saved document holds the
current claims and payouts, and the previous state's notified list (empty if
there was none) extended with the ids of this run's expired-claim
notifications. -/
def save_current_state (now : Int) (previous_state : Option AgentState)
    (current_claims : List Claim) (current_payouts : List Payout)
    (notifications : List Notif) : AgentState :=
  { last_run := now
    claims := current_claims
    payouts := current_payouts
    notified_expired_claims :=
      addNotified (stateNotified previous_state) notifications }

/-- Inputs of one run of `ClassActionClaimsAgent.run`: the run's clock
reading and the raw data returned by the mock fetch collaborators.  Every
`datetime.now()` read during the run is modelled by the single instant
`now`. -/
structure RunInput where
  now : Int
  fetched_claims : List Claim
  fetched_payouts : List Payout
deriving Repr

/-- `ClassActionClaimsAgent.fetch_active_claims`: drop fetched claims that are
already expired. -/
def fetch_active_claims (now : Int) (fetched : List Claim) : List Claim :=
  fetched.filter (fun c => !(c.is_expired now))

/-- `ClassActionClaimsAgent.fetch_recent_payouts`: keep payouts announced on
or after `datetime.now() - timedelta(days=days)`. -/
def fetch_recent_payouts (now recent_window_days : Int)
    (fetched : List Payout) : List Payout :=
  fetched.filter (fun p => decide (p.announcement_date ≥ now - recent_window_days * 86400))

/-- One run of `ClassActionClaimsAgent.run`: load the previous state (given),
fetch, generate notifications, save.  A `TypeError` raised during detection
aborts the run before the state is saved. -/
def runOnce (expiring_window_days recent_window_days : Int)
    (previous_state : Option AgentState) (inp : RunInput) :
    Except String (List Notif × AgentState) :=
  let current_claims := fetch_active_claims inp.now inp.fetched_claims
  let current_payouts :=
    fetch_recent_payouts inp.now recent_window_days inp.fetched_payouts
  (generate_notifications inp.now expiring_window_days previous_state
      current_claims current_payouts).map
    (fun notifs =>
      (notifs,
       save_current_state inp.now previous_state current_claims current_payouts
         notifs))

/-- Reports of a sequence of runs sharing one state file, starting from the
file contents `st` (`none` = no file yet).  A run that raises contributes no
report and leaves the file unchanged; file writes are taken as reliable, so a
saved state is exactly what the next run loads. -/
def runSeq (expiring_window_days recent_window_days : Int)
    (st : Option AgentState) : List RunInput → List (List Notif)
  | [] => []
  | inp :: rest =>
    match runOnce expiring_window_days recent_window_days st inp with
    | .error _ => runSeq expiring_window_days recent_window_days st rest
    | .ok (notifs, st1) =>
      notifs :: runSeq expiring_window_days recent_window_days (some st1) rest

/-- The state file contents after a sequence of runs. -/
def runStates (expiring_window_days recent_window_days : Int)
    (st : Option AgentState) : List RunInput → Option AgentState
  | [] => st
  | inp :: rest =>
    match runOnce expiring_window_days recent_window_days st inp with
    | .error _ => runStates expiring_window_days recent_window_days st rest
    | .ok (_, st1) => runStates expiring_window_days recent_window_days (some st1) rest

/-- Ids appearing in the expired-claims (boundary-crossings) bucket of one
run's notifications. -/
def expiredIds (notifs : List Notif) : List String :=
  notifs.filterMap (fun n =>
    match n with
    | Notif.expired_claim cid => some cid
    | _ => none)

/-- Number of times an id appears in the expired-claims bucket across a
sequence of reports. -/
def totalExpiredCount (cid : String) (reports : List (List Notif)) : Nat :=
  (reports.map (fun r => (expiredIds r).count cid)).sum

end ClassAction

namespace ActionClaims

/-- Model of `action_claims_agent.Payout` restricted to the field the change
detection reads: `payout_id`.  Amount, currency, dates, status and metadata
are carried through verbatim and never branched on by `detect_changes`. -/
structure Payout where
  payout_id : String
deriving Repr, DecidableEq

/-- Model of `action_claims_agent.Claim` restricted to the fields read by
`StateManager` and the notification formatter: id, name, optional expiration
datetime, and the attached payouts. -/
structure Claim where
  claim_id : String
  name : String
  expiration_date : Option Int
  payouts : List Payout
deriving Repr, DecidableEq

/-- `Claim.is_expired` reads `datetime.now()` at call time.  The clock is a
stream of instants indexed by read order: the call consumes one reading when
an expiration date is present, and none otherwise (the `None` guard returns
before consulting the clock).  Returns the verdict and the next reading
index. -/
def isExpiredAt (clock : Nat → Int) (i : Nat) (c : Claim) : Bool × Nat :=
  match c.expiration_date with
  | none => (false, i)
  | some d => (decide (clock i > d), i + 1)

/-- Python dict insertion: an existing key keeps its position and takes the
new value; a fresh key is appended. -/
def dictInsert (k : String) (c : Claim) :
    List (String × Claim) → List (String × Claim)
  | [] => [(k, c)]
  | (k', c') :: rest =>
    if k' == k then (k', c) :: rest else (k', c') :: dictInsert k c rest

/-- The python dict comprehension `{claim.claim_id: claim for claim in l}`. -/
def dictOfClaims (l : List Claim) : List (String × Claim) :=
  l.foldl (fun d c => dictInsert c.claim_id c d) []

/-- Python `key in d` on an id-keyed dict. -/
def dictContains (d : List (String × Claim)) (k : String) : Bool :=
  d.any (fun kv => kv.1 == k)

/-- Python `d.get(key)` on an id-keyed dict. -/
def dictGet (d : List (String × Claim)) (k : String) : Option Claim :=
  (d.find? (fun kv => kv.1 == k)).map Prod.snd

/-- The JSON document managed by `StateManager`: the previous run's claims
keyed by id (plus the demoted `previous_claims` generation and the last run
stamp). -/
structure ManagerState where
  last_run : Option Int
  claims : List (String × Claim)
  previous_claims : List (String × Claim)
deriving Repr, DecidableEq

/-- The state `StateManager.load_state` substitutes when the backing file is
missing or unparseable. -/
def emptyManagerState : ManagerState :=
  { last_run := none, claims := [], previous_claims := [] }

/-- Conditions of the backing file when `load_state` reads it: absent,
unreadable (`open` raises `IOError`), unparseable (`json.load` raises
`JSONDecodeError`), or readable with parsed contents. -/
inductive FileRead
  | absent
  | ioError
  | badJson
  | ok (st : ManagerState)
deriving Repr

/-- `StateManager.load_state`: a missing file and both caught exception
classes all yield the empty state; the function is total, so load never
raises for a missing or unparseable file. -/
def load_state : FileRead → ManagerState
  | .absent => emptyManagerState
  | .ioError => emptyManagerState
  | .badJson => emptyManagerState
  | .ok st => st

/-- Outcome of the file write attempted by a save. -/
inductive WriteOutcome
  | success
  | ioError
deriving Repr, DecidableEq

/-- `StateManager.save_state` builds the new document (current claims keyed
by id, the old `claims` dict demoted to `previous_claims`, `last_run = now`)
and writes it with no exception handler: a failed write propagates the
`IOError` to the caller. -/
def save_state (w : WriteOutcome) (now : Int) (st : ManagerState)
    (claims : List Claim) : Except String ManagerState :=
  let new_state : ManagerState :=
    { last_run := some now
      claims := dictOfClaims claims
      previous_claims := st.claims }
  match w with
  | .success => .ok new_state
  | .ioError => .error "IOError"

/-- The change report of `StateManager.detect_changes`. -/
structure Changes where
  new_claims : List Claim
  expired_claims : List Claim
  new_payouts : List (Claim × Payout)
deriving Repr, DecidableEq

/-- Second loop of `detect_changes`, over `previous_claims.items()`, threading
the clock reading index because every `is_expired()` call re-reads
`datetime.now()`.  Python's `and` short-circuits: the current copy's
`is_expired()` runs only when the previous copy tested not expired.  The new
payouts of a matched claim are those whose id is not among the previous
copy's payout ids. -/
def expiredAndPayoutsLoop (clock : Nat → Int) (cur : List (String × Claim)) :
    List (String × Claim) → Nat → List Claim × List (Claim × Payout)
  | [], _ => ([], [])
  | (cid, pc) :: rest, i =>
    match dictGet cur cid with
    | none => expiredAndPayoutsLoop clock cur rest i
    | some cc =>
      let r1 := isExpiredAt clock i pc
      let r2 := if r1.1 then (false, r1.2) else isExpiredAt clock r1.2 cc
      let newPays := cc.payouts.filter
        (fun p => !((pc.payouts.map Payout.payout_id).contains p.payout_id))
      let r := expiredAndPayoutsLoop clock cur rest r2.2
      ((if r2.1 then [cc] else []) ++ r.1, newPays.map (fun p => (cc, p)) ++ r.2)

/-- `StateManager.detect_changes`: new claims are the current dict entries
whose id is absent from the loaded `claims` dict, in dict order; the second
loop fills the expired-claims and new-payouts buckets. -/
def detect_changes (clock : Nat → Int) (st : ManagerState)
    (current_claims : List Claim) : Changes :=
  let previous_claims := st.claims
  let current_dict := dictOfClaims current_claims
  let r := expiredAndPayoutsLoop clock current_dict previous_claims 0
  { new_claims :=
      (current_dict.filter (fun kv => !(dictContains previous_claims kv.1))).map
        Prod.snd
    expired_claims := r.1
    new_payouts := r.2 }

/-- Body text assembled by `format_changes_notification`, abridged to the
entity names it lists: the fixed headings, separators, amounts and date
stamps are rendering-only. -/
def formatBody (changes : Changes) : String :=
  String.intercalate "\n"
    (["Action Claims Agent - Change Detection Report"]
      ++ changes.expired_claims.map (fun c => c.name)
      ++ changes.new_payouts.map (fun cp => cp.1.name))

/-- `EmailNotifier.format_changes_notification`: the change total counts only
the expired-claims and new-payouts buckets; when it is zero the function
returns `(None, None)`, otherwise a subject naming the total and a body. -/
def format_changes_notification (changes : Changes) :
    Option String × Option String :=
  let total_changes :=
    changes.expired_claims.length + changes.new_payouts.length
  if total_changes == 0 then (none, none)
  else
    (some s!"Action Claims Alert: {total_changes} Change(s) Detected",
     some (formatBody changes))

/-- Notification gate of `ActionClaimsAgent.run`: notifications are prepared
only when `expired_count > 0 or payout_count > 0`; the new-claims bucket is
not consulted. -/
def run_sends_notification (changes : Changes) : Bool :=
  decide (changes.expired_claims.length > 0) ||
    decide (changes.new_payouts.length > 0)

end ActionClaims

namespace ClassAction

/-- Conditions of the state file when
`ClassActionClaimsAgent.load_previous_state` reads it. -/
inductive FileRead
  | absent
  | ioError
  | badJson
  | ok (st : AgentState)
deriving Repr

/-- `ClassActionClaimsAgent.load_previous_state`: a missing file and both
caught exception classes leave `previous_state = None`, which every detector
treats as first-run (empty) state; the function is total, so load never
raises. -/
def load_previous_state : FileRead → Option AgentState
  | .absent => none
  | .ioError => none
  | .badJson => none
  | .ok st => some st

/-- What the caller of `ClassActionClaimsAgent.save_current_state` observes
for each write outcome, paired with the resulting file contents: the `except
IOError` handler only prints, so the call returns normally either way, and a
failed write leaves the old file contents in place. -/
def save_current_state_outcome (w : ActionClaims.WriteOutcome)
    (fileBefore : Option AgentState) (newState : AgentState) :
    Except String Unit × Option AgentState :=
  match w with
  | .success => (.ok (), some newState)
  | .ioError => (.ok (), fileBefore)

end ClassAction

namespace ActionClaims

theorem contains_iff_mem (l : List String) (a : String) :
    l.contains a = true ↔ a ∈ l := List.elem_iff

theorem dictInsert_of_fresh (k : String) (c : Claim) (d : List (String × Claim))
    (h : ∀ kv ∈ d, kv.1 ≠ k) : dictInsert k c d = d ++ [(k, c)] := by
  induction d with
  | nil => rfl
  | cons kv rest ih =>
    obtain ⟨k', c'⟩ := kv
    have hk : k' ≠ k := h (k', c') (List.mem_cons_self _ _)
    simp only [dictInsert, List.cons_append]
    rw [if_neg (by simpa using hk), ih (fun kv hkv => h kv (List.mem_cons_of_mem _ hkv))]

theorem dictOfClaims_aux (l : List Claim) :
    ∀ acc : List (String × Claim),
      (l.map Claim.claim_id).Nodup →
      (∀ c ∈ l, ∀ kv ∈ acc, kv.1 ≠ c.claim_id) →
      l.foldl (fun d c => dictInsert c.claim_id c d) acc
        = acc ++ l.map (fun c => (c.claim_id, c)) := by
  induction l with
  | nil => intro acc _ _; simp
  | cons c rest ih =>
    intro acc hnd hacc
    simp only [List.map_cons, List.nodup_cons] at hnd
    simp only [List.foldl_cons, List.map_cons]
    rw [dictInsert_of_fresh _ _ _ (fun kv hkv => hacc c (List.mem_cons_self _ _) kv hkv)]
    rw [ih (acc ++ [(c.claim_id, c)]) hnd.2 ?_]
    · simp
    · intro c' hc' kv hkv
      rcases List.mem_append.mp hkv with hin | hone
      · exact hacc c' (List.mem_cons_of_mem _ hc') kv hin
      · simp only [List.mem_singleton] at hone
        subst hone
        intro heq
        refine hnd.1 ?_
        have : c'.claim_id ∈ rest.map Claim.claim_id :=
          List.mem_map_of_mem Claim.claim_id hc'
        simpa [← heq] using this

theorem dictOfClaims_eq (l : List Claim) (h : (l.map Claim.claim_id).Nodup) :
    dictOfClaims l = l.map (fun c => (c.claim_id, c)) := by
  simpa using dictOfClaims_aux l [] h (by simp)

theorem dictGet_dictOfClaims (l : List Claim) (h : (l.map Claim.claim_id).Nodup)
    (k : String) :
    dictGet (dictOfClaims l) k = l.find? (fun c => c.claim_id == k) := by
  rw [dictGet, dictOfClaims_eq l h, List.find?_map]
  have hc : ((fun kv : String × Claim => kv.1 == k) ∘ fun c => (c.claim_id, c))
      = fun c => c.claim_id == k := rfl
  rw [hc]
  cases l.find? (fun c => c.claim_id == k) <;> rfl

theorem find?_id_of_nodup (l : List Claim) (h : (l.map Claim.claim_id).Nodup)
    (c : Claim) (hc : c ∈ l) :
    l.find? (fun x => x.claim_id == c.claim_id) = some c := by
  induction l with
  | nil => cases hc
  | cons a rest ih =>
    simp only [List.map_cons, List.nodup_cons] at h
    rcases List.mem_cons.mp hc with rfl | hmem
    · simp [List.find?]
    · rw [List.find?]
      have hne : (a.claim_id == c.claim_id) = false := by
        refine beq_eq_false_iff_ne.mpr (fun heq => h.1 ?_)
        exact heq ▸ List.mem_map_of_mem Claim.claim_id hmem
      rw [hne]
      exact ih h.2 hmem

end ActionClaims

namespace ActionClaims

theorem mem_payouts_loop_iff (clock : Nat → Int) (cur : List (String × Claim))
    (cc : Claim) (p : Payout) :
    ∀ (pl : List (String × Claim)) (i : Nat),
      ((cc, p) ∈ (expiredAndPayoutsLoop clock cur pl i).2 ↔
        ∃ cid pc, (cid, pc) ∈ pl ∧ dictGet cur cid = some cc ∧ p ∈ cc.payouts ∧
          ((pc.payouts.map Payout.payout_id).contains p.payout_id) = false) := by
  intro pl
  induction pl with
  | nil => intro i; simp [expiredAndPayoutsLoop]
  | cons kv rest ih =>
    intro i
    obtain ⟨cid, pc⟩ := kv
    cases hg : dictGet cur cid with
    | none =>
      simp only [expiredAndPayoutsLoop, hg]
      rw [ih i]
      constructor
      · rintro ⟨cid', pc', hmem, hget, hp, hnp⟩
        exact ⟨cid', pc', List.mem_cons_of_mem _ hmem, hget, hp, hnp⟩
      · rintro ⟨cid', pc', hmem, hget, hp, hnp⟩
        rcases List.mem_cons.mp hmem with heq | hmem'
        · obtain ⟨rfl, rfl⟩ := Prod.mk.injEq .. ▸ heq
          rw [hg] at hget
          cases hget
        · exact ⟨cid', pc', hmem', hget, hp, hnp⟩
    | some cc' =>
      simp only [expiredAndPayoutsLoop, hg, List.mem_append, List.mem_map,
        List.mem_filter]
      constructor
      · rintro (⟨p', ⟨hp', hnp'⟩, heq⟩ | hrest)
        · obtain ⟨rfl, rfl⟩ := Prod.mk.injEq .. ▸ heq
          exact ⟨cid, pc, List.mem_cons_self _ _, hg, hp', by simpa using hnp'⟩
        · obtain ⟨cid', pc', hmem, hget, hp, hnp⟩ := (ih _).mp hrest
          exact ⟨cid', pc', List.mem_cons_of_mem _ hmem, hget, hp, hnp⟩
      · rintro ⟨cid', pc', hmem, hget, hp, hnp⟩
        rcases List.mem_cons.mp hmem with heq | hmem'
        · obtain ⟨rfl, rfl⟩ := Prod.mk.injEq .. ▸ heq
          rw [hg] at hget
          cases hget
          exact Or.inl ⟨p, ⟨hp, by simpa using hnp⟩, rfl⟩
        · exact Or.inr ((ih _).mpr ⟨cid', pc', hmem', hget, hp, hnp⟩)

theorem detect_changes_empty_prev (clock : Nat → Int) (cur : List Claim)
    (h : (cur.map Claim.claim_id).Nodup) :
    detect_changes clock emptyManagerState cur
      = { new_claims := cur, expired_claims := [], new_payouts := [] } := by
  unfold detect_changes emptyManagerState
  simp only [expiredAndPayoutsLoop]
  congr 1
  rw [dictOfClaims_eq cur h]
  have hfilter :
      (cur.map (fun c => (c.claim_id, c))).filter
          (fun kv => !(dictContains [] kv.1))
        = cur.map (fun c => (c.claim_id, c)) := by
    apply List.filter_eq_self.mpr
    intro kv _
    rfl
  rw [hfilter, List.map_map]
  have hcomp : (Prod.snd ∘ fun c : Claim => (c.claim_id, c)) = id := rfl
  rw [hcomp, List.map_id]

end ActionClaims

namespace ClassAction

theorem contains_mem_iff_CA (l : List String) (a : String) :
    l.contains a = true ↔ a ∈ l := List.elem_iff

theorem prevStep_eq_append_iff (now : Int) (notified current_ids : List String)
    (pc : Claim) :
    prevStep now notified current_ids pc = .append ↔
      notified.contains pc.claim_id = false ∧
      current_ids.contains pc.claim_id = false ∧
      pc.is_expired now = true := by
  unfold prevStep
  cases hn : notified.contains pc.claim_id with
  | true => simp
  | false =>
    simp only [Bool.false_eq_true, if_false]
    cases he : pc.is_expired now with
    | true =>
      simp only [Bool.true_eq_false, if_false, if_true]
      cases hc : current_ids.contains pc.claim_id with
      | true => simp
      | false => simp
    | false =>
      simp only [if_true]
      cases hdl : pc.filing_deadline with
      | none => simp
      | some d =>
        have hlt : ¬ (now > d) := by
          simpa [Claim.is_expired, hdl] using he
        simp [hlt, he]

theorem prevStep_eq_typeError_iff (now : Int) (notified current_ids : List String)
    (pc : Claim) :
    prevStep now notified current_ids pc = .typeError ↔
      notified.contains pc.claim_id = false ∧ pc.filing_deadline = none := by
  unfold prevStep
  cases hn : notified.contains pc.claim_id with
  | true => simp
  | false =>
    simp only [Bool.false_eq_true, if_false]
    cases hdl : pc.filing_deadline with
    | none => simp [Claim.is_expired, hdl]
    | some d =>
      simp only [hdl]
      constructor
      · intro h
        split at h
        · split at h
          · cases h
          · split at h <;> cases h
        · split at h <;> cases h
      · rintro ⟨-, h⟩
        cases h

theorem expiredFromPrev_ok_elim (now : Int) (notified current_ids : List String) :
    ∀ (pl : List Claim) (l : List Claim),
      expiredFromPrev now notified current_ids pl = .ok l →
      l = pl.filter (fun c => prevStep now notified current_ids c == .append) := by
  intro pl
  induction pl with
  | nil => intro l h; cases h; rfl
  | cons pc rest ih =>
    intro l h
    rw [expiredFromPrev] at h
    cases hs : prevStep now notified current_ids pc with
    | skip =>
      rw [hs] at h
      rw [List.filter_cons_of_neg (by simp [hs])]
      exact ih l h
    | append =>
      rw [hs] at h
      cases hr : expiredFromPrev now notified current_ids rest with
      | error e => rw [hr] at h; cases h
      | ok l' =>
        rw [hr] at h
        cases h
        rw [List.filter_cons_of_pos (by simp [hs])]
        rw [ih l' hr]
    | typeError => rw [hs] at h; cases h

theorem expiredFromPrev_ok_of_no_typeError (now : Int)
    (notified current_ids : List String) :
    ∀ pl : List Claim,
      (∀ c ∈ pl, prevStep now notified current_ids c ≠ .typeError) →
      expiredFromPrev now notified current_ids pl
        = .ok (pl.filter (fun c => prevStep now notified current_ids c == .append)) := by
  intro pl
  induction pl with
  | nil => intro _; rfl
  | cons pc rest ih =>
    intro h
    rw [expiredFromPrev]
    cases hs : prevStep now notified current_ids pc with
    | skip =>
      rw [List.filter_cons_of_neg (by simp [hs])]
      exact ih (fun c hc => h c (List.mem_cons_of_mem _ hc))
    | append =>
      rw [ih (fun c hc => h c (List.mem_cons_of_mem _ hc))]
      rw [List.filter_cons_of_pos (by simp [hs])]
      rfl
    | typeError => exact absurd hs (h pc (List.mem_cons_self _ _))

theorem detect_expired_ok_elim (now : Int) (st : AgentState)
    (cur : List Claim) (l : List Claim)
    (h : detect_expired_claims now (some st) cur = .ok l) :
    l = st.claims.filter
          (fun c => prevStep now st.notified_expired_claims
            (cur.map Claim.claim_id) c == .append)
        ++ cur.filter (currentCheck now st.notified_expired_claims st.claims) := by
  rw [detect_expired_claims] at h
  cases hr : expiredFromPrev now st.notified_expired_claims
      (cur.map Claim.claim_id) st.claims with
  | error e => rw [hr] at h; cases h
  | ok l1 =>
    rw [hr] at h
    cases h
    rw [expiredFromPrev_ok_elim now _ _ st.claims l1 hr]

end ClassAction

namespace ClassAction

theorem addNotified_mono (x : String) :
    ∀ (l : List Notif) (acc : List String), x ∈ acc → x ∈ addNotified acc l := by
  intro l
  induction l with
  | nil => intro acc h; exact h
  | cons n rest ih =>
    intro acc h
    cases n with
    | expired_claim cid =>
      rw [addNotified]
      by_cases hc : acc.contains cid
      · rw [if_pos hc]; exact ih acc h
      · rw [if_neg hc]; exact ih _ (List.mem_append_left _ h)
    | expiring_claim cid => exact ih acc h
    | new_payout pid => exact ih acc h

theorem mem_addNotified_of_notif (x : String) :
    ∀ (l : List Notif) (acc : List String),
      Notif.expired_claim x ∈ l → x ∈ addNotified acc l := by
  intro l
  induction l with
  | nil => intro acc h; cases h
  | cons n rest ih =>
    intro acc h
    rcases List.mem_cons.mp h with rfl | hmem
    · rw [addNotified]
      by_cases hc : acc.contains x
      · rw [if_pos hc]
        exact addNotified_mono x rest acc ((contains_mem_iff_CA acc x).mp hc)
      · rw [if_neg hc]
        exact addNotified_mono x rest _ (List.mem_append_right _ (List.mem_singleton.mpr rfl))
    · cases n with
      | expired_claim cid =>
        rw [addNotified]
        by_cases hc : acc.contains cid
        · rw [if_pos hc]; exact ih acc hmem
        · rw [if_neg hc]; exact ih _ hmem
      | expiring_claim cid => exact ih acc hmem
      | new_payout pid => exact ih acc hmem

theorem addNotified_append_spec :
    ∀ (l : List Notif) (acc : List String),
      ∃ s : List String,
        addNotified acc l = acc ++ s ∧ s.Nodup ∧ ∀ x ∈ s, x ∉ acc := by
  intro l
  induction l with
  | nil => intro acc; exact ⟨[], by simp [addNotified], List.nodup_nil, by simp⟩
  | cons n rest ih =>
    intro acc
    cases n with
    | expired_claim cid =>
      rw [addNotified]
      by_cases hc : acc.contains cid
      · rw [if_pos hc]; exact ih acc
      · rw [if_neg hc]
        obtain ⟨s, hs, hnd, hdisj⟩ := ih (acc ++ [cid])
        refine ⟨cid :: s, by simpa using hs, ?_, ?_⟩
        · refine List.nodup_cons.mpr ⟨?_, hnd⟩
          intro hmem
          exact hdisj cid hmem (List.mem_append_right _ (List.mem_singleton.mpr rfl))
        · intro x hx
          rcases List.mem_cons.mp hx with rfl | hx'
          · exact fun hmem => hc ((contains_mem_iff_CA acc x).mpr hmem)
          · exact fun hmem => hdisj x hx' (List.mem_append_left _ hmem)
    | expiring_claim cid => exact ih acc
    | new_payout pid => exact ih acc

end ClassAction

namespace ClassAction

theorem expiredIds_append (l1 l2 : List Notif) :
    expiredIds (l1 ++ l2) = expiredIds l1 ++ expiredIds l2 :=
  List.filterMap_append l1 l2 _

theorem expiredIds_map_expiring (l : List Claim) :
    expiredIds (l.map (fun c => Notif.expiring_claim c.claim_id)) = [] := by
  induction l with
  | nil => rfl
  | cons c rest ih => simp [expiredIds, List.filterMap_cons]

theorem expiredIds_map_payout (l : List Payout) :
    expiredIds (l.map (fun p => Notif.new_payout p.payout_id)) = [] := by
  induction l with
  | nil => rfl
  | cons p rest ih => simp [expiredIds, List.filterMap_cons]

theorem expiredIds_map_expired (l : List Claim) :
    expiredIds (l.map (fun c => Notif.expired_claim c.claim_id))
      = l.map Claim.claim_id := by
  induction l with
  | nil => rfl
  | cons c rest ih => simpa [expiredIds, List.filterMap_cons] using ih

theorem mem_of_mem_expiredIds (x : String) (l : List Notif)
    (h : x ∈ expiredIds l) : Notif.expired_claim x ∈ l := by
  obtain ⟨n, hn, he⟩ := List.mem_filterMap.mp h
  cases n with
  | expired_claim cid => cases he; exact hn
  | expiring_claim cid => cases he
  | new_payout pid => cases he

theorem generate_notifications_ok_elim (now ewd : Int) (ps : Option AgentState)
    (cur : List Claim) (pays : List Payout) (notifs : List Notif)
    (h : generate_notifications now ewd ps cur pays = .ok notifs) :
    ∃ l, detect_expired_claims now ps cur = .ok l ∧
      expiredIds notifs = l.map Claim.claim_id := by
  unfold generate_notifications at h
  cases hd : detect_expired_claims now ps cur with
  | error e => rw [hd] at h; cases h
  | ok l =>
    rw [hd] at h
    simp only [Except.map] at h
    cases h
    refine ⟨l, rfl, ?_⟩
    rw [expiredIds_append, expiredIds_append, expiredIds_map_expiring,
      expiredIds_map_expired, expiredIds_map_payout]
    simp

theorem runOnce_ok_elim (ewd rwd : Int) (ps : Option AgentState) (inp : RunInput)
    (notifs : List Notif) (st1 : AgentState)
    (h : runOnce ewd rwd ps inp = .ok (notifs, st1)) :
    ∃ l, detect_expired_claims inp.now ps
          (fetch_active_claims inp.now inp.fetched_claims) = .ok l ∧
      expiredIds notifs = l.map Claim.claim_id ∧
      st1 = save_current_state inp.now ps
              (fetch_active_claims inp.now inp.fetched_claims)
              (fetch_recent_payouts inp.now rwd inp.fetched_payouts) notifs := by
  simp only [runOnce] at h
  cases hg : generate_notifications inp.now ewd ps
      (fetch_active_claims inp.now inp.fetched_claims)
      (fetch_recent_payouts inp.now rwd inp.fetched_payouts) with
  | error e => rw [hg] at h; cases h
  | ok ns =>
    rw [hg] at h
    simp only [Except.map] at h
    cases h
    obtain ⟨l, hd, hids⟩ := generate_notifications_ok_elim _ _ _ _ _ _ hg
    exact ⟨l, hd, hids, rfl⟩

theorem detect_none_elim (now : Int) (cur l : List Claim)
    (h : detect_expired_claims now none cur = .ok l) : l = [] := by
  rw [detect_expired_claims] at h
  cases h
  rfl

theorem detect_count_le_one (now : Int) (st : AgentState) (cur l : List Claim)
    (hok : detect_expired_claims now (some st) cur = .ok l)
    (hprev : (st.claims.map Claim.claim_id).Nodup)
    (hcur : (cur.map Claim.claim_id).Nodup)
    (cid : String) :
    (l.map Claim.claim_id).count cid ≤ 1 := by
  rw [detect_expired_ok_elim now st cur l hok, List.map_append, List.count_append]
  set f1 := st.claims.filter
    (fun c => prevStep now st.notified_expired_claims
      (cur.map Claim.claim_id) c == .append) with hf1
  set f2 := cur.filter (currentCheck now st.notified_expired_claims st.claims)
    with hf2
  have hle1 : (f1.map Claim.claim_id).count cid ≤ 1 := by
    refine le_trans (List.Sublist.count_le ?_ cid)
      (List.nodup_iff_count_le_one.mp hprev cid)
    exact (List.filter_sublist st.claims).map Claim.claim_id
  have hle2 : (f2.map Claim.claim_id).count cid ≤ 1 := by
    refine le_trans (List.Sublist.count_le ?_ cid)
      (List.nodup_iff_count_le_one.mp hcur cid)
    exact (List.filter_sublist cur).map Claim.claim_id
  by_cases hm : cid ∈ f1.map Claim.claim_id
  · have hnc : cid ∉ cur.map Claim.claim_id := by
      obtain ⟨c, hc, rfl⟩ := List.mem_map.mp hm
      obtain ⟨hcm, hpred⟩ := List.mem_filter.mp hc
      have happ : prevStep now st.notified_expired_claims
          (cur.map Claim.claim_id) c = .append := by simpa using hpred
      have hfc := ((prevStep_eq_append_iff _ _ _ _).mp happ).2.1
      intro hmem
      rw [(contains_mem_iff_CA _ _).mpr hmem] at hfc
      cases hfc
    have hz2 : (f2.map Claim.claim_id).count cid = 0 := by
      refine List.count_eq_zero.mpr ?_
      intro hmem
      apply hnc
      exact List.Sublist.mem hmem ((List.filter_sublist cur).map Claim.claim_id)
    omega
  · have hz1 : (f1.map Claim.claim_id).count cid = 0 :=
      List.count_eq_zero.mpr hm
    omega

theorem detect_skip_notified (now : Int) (st : AgentState) (cur l : List Claim)
    (hok : detect_expired_claims now (some st) cur = .ok l)
    (cid : String) (hmem : cid ∈ st.notified_expired_claims) :
    cid ∉ l.map Claim.claim_id := by
  rw [detect_expired_ok_elim now st cur l hok, List.map_append]
  intro hin
  rcases List.mem_append.mp hin with h1 | h2
  · obtain ⟨c, hc, rfl⟩ := List.mem_map.mp h1
    obtain ⟨-, hpred⟩ := List.mem_filter.mp hc
    have happ : prevStep now st.notified_expired_claims
        (cur.map Claim.claim_id) c = .append := by simpa using hpred
    have hno := ((prevStep_eq_append_iff _ _ _ _).mp happ).1
    rw [(contains_mem_iff_CA _ _).mpr hmem] at hno
    cases hno
  · obtain ⟨c, hc, rfl⟩ := List.mem_map.mp h2
    obtain ⟨-, hpred⟩ := List.mem_filter.mp hc
    rw [currentCheck] at hpred
    have hno : st.notified_expired_claims.contains c.claim_id = false := by
      cases hcc : st.notified_expired_claims.contains c.claim_id with
      | false => rfl
      | true => rw [hcc] at hpred; simp at hpred
    rw [(contains_mem_iff_CA _ _).mpr hmem] at hno
    cases hno

end ClassAction

namespace ClassAction

theorem runSeq_count_bound (ewd rwd : Int) (cid : String) :
    ∀ (inputs : List RunInput) (st : Option AgentState),
      (∀ inp ∈ inputs, (inp.fetched_claims.map Claim.claim_id).Nodup) →
      ((stateClaims st).map Claim.claim_id).Nodup →
      totalExpiredCount cid (runSeq ewd rwd st inputs) ≤ 1 ∧
      (cid ∈ stateNotified st →
        totalExpiredCount cid (runSeq ewd rwd st inputs) = 0) := by
  intro inputs
  induction inputs with
  | nil =>
    intro st _ _
    exact ⟨by simp [runSeq, totalExpiredCount],
      fun _ => by simp [runSeq, totalExpiredCount]⟩
  | cons inp rest ih =>
    intro st hf hst
    have hfr : ∀ i ∈ rest, (i.fetched_claims.map Claim.claim_id).Nodup :=
      fun i hi => hf i (List.mem_cons_of_mem _ hi)
    have hfi : (inp.fetched_claims.map Claim.claim_id).Nodup :=
      hf inp (List.mem_cons_self _ _)
    cases hrun : runOnce ewd rwd st inp with
    | error e =>
      have hseq : runSeq ewd rwd st (inp :: rest) = runSeq ewd rwd st rest := by
        rw [runSeq, hrun]
      rw [hseq]
      exact ih st hfr hst
    | ok pr =>
      obtain ⟨notifs, st1⟩ := pr
      have hseq : runSeq ewd rwd st (inp :: rest)
          = notifs :: runSeq ewd rwd (some st1) rest := by
        rw [runSeq, hrun]
      rw [hseq]
      obtain ⟨l, hd, hids, hsave⟩ := runOnce_ok_elim ewd rwd st inp notifs st1 hrun
      have hcurnd :
          ((fetch_active_claims inp.now inp.fetched_claims).map
            Claim.claim_id).Nodup := by
        refine List.Nodup.sublist ?_ hfi
        exact (List.filter_sublist _).map _
      have hst1 : ((stateClaims (some st1)).map Claim.claim_id).Nodup := by
        rw [hsave]
        exact hcurnd
      have hnot1 : stateNotified (some st1)
          = addNotified (stateNotified st) notifs := by
        rw [hsave]
        rfl
      have htot : totalExpiredCount cid
            (notifs :: runSeq ewd rwd (some st1) rest)
          = (expiredIds notifs).count cid
            + totalExpiredCount cid (runSeq ewd rwd (some st1) rest) := by
        simp [totalExpiredCount]
      rw [htot]
      have ihr := ih (some st1) hfr hst1
      cases st with
      | none =>
        have hl : l = [] := detect_none_elim _ _ _ hd
        subst hl
        have hz : (expiredIds notifs).count cid = 0 := by
          rw [hids]
          simp
        constructor
        · have := ihr.1
          omega
        · intro hmem
          simp [stateNotified] at hmem
      | some s =>
        by_cases hmem : cid ∈ s.notified_expired_claims
        · have hz : (expiredIds notifs).count cid = 0 := by
            rw [hids]
            exact List.count_eq_zero.mpr
              (detect_skip_notified inp.now s _ l hd cid hmem)
          have hin1 : cid ∈ stateNotified (some st1) := by
            rw [hnot1]
            exact addNotified_mono cid notifs _ hmem
          have hr0 := ihr.2 hin1
          constructor
          · omega
          · intro _
            omega
        · have hle : (expiredIds notifs).count cid ≤ 1 := by
            rw [hids]
            exact detect_count_le_one inp.now s _ l hd hst hcurnd cid
          constructor
          · by_cases hpos : (expiredIds notifs).count cid = 0
            · have := ihr.1
              omega
            · have hcin : cid ∈ expiredIds notifs := by
                rw [← List.count_pos_iff]
                omega
              have hin1 : cid ∈ stateNotified (some st1) := by
                rw [hnot1]
                exact mem_addNotified_of_notif cid notifs _
                  (mem_of_mem_expiredIds cid notifs hcin)
              have hr0 := ihr.2 hin1
              omega
          · intro hmem'
            exact absurd hmem' hmem

end ClassAction

namespace ClassAction

theorem contains_false_iff_CA (l : List String) (a : String) :
    l.contains a = false ↔ a ∉ l := by
  rw [Bool.eq_false_iff]
  exact not_congr (contains_mem_iff_CA l a)

/-- C1: At-most-once alerting.  Across any sequence of runs of the
class-action agent sharing one state file that starts absent, with fetches
returning duplicate-free claim ids, a given claim id appears in the reports'
expired-claims (boundary-crossings) buckets at most once in total: at most
once within a single report and, once persisted in
`notified_expired_claims`, never again in any later report. -/
theorem C1_at_most_once_alerting (ewd rwd : Int) (inputs : List RunInput)
    (cid : String)
    (h : ∀ inp ∈ inputs, (inp.fetched_claims.map Claim.claim_id).Nodup) :
    totalExpiredCount cid (runSeq ewd rwd none inputs) ≤ 1 :=
  (runSeq_count_bound ewd rwd cid inputs none h (by simp [stateClaims])).1

/-- Witness for C1: a concrete three-run trace in which claim E expires, is
reported once, and is later re-added, with the hypothesis discharged. -/
theorem C1_at_most_once_alerting_witness :
    (∀ inp ∈ ([⟨100, [⟨"E", some 150⟩], []⟩, ⟨200, [], []⟩,
        ⟨300, [⟨"E", some 150⟩], []⟩] : List RunInput),
      (inp.fetched_claims.map Claim.claim_id).Nodup) ∧
    totalExpiredCount "E" (runSeq 30 30 none
      [⟨100, [⟨"E", some 150⟩], []⟩, ⟨200, [], []⟩,
       ⟨300, [⟨"E", some 150⟩], []⟩]) ≤ 1 :=
  ⟨by decide, C1_at_most_once_alerting 30 30 _ "E" (by decide)⟩

/-- C3 counterexample: a four-run trace sharing one state file in which claim
E is present and not expired in run 3 (at instant 250, deadline 300), absent
from run 4's fetch, and its stored copy is expired at run 4 (instant 400) --
yet run 4's report has an empty expired-claims bucket, because E was already
notified in run 2 and its id stays in `notified_expired_claims` forever. -/
theorem C3_disappearance_as_expiry_cex :
    (⟨"E", some 300⟩ : Claim) ∈ fetch_active_claims 250 [⟨"E", some 300⟩] ∧
    Claim.is_expired ⟨"E", some 300⟩ 250 = false ∧
    runStates 30 30 none
        [⟨100, [⟨"E", some 150⟩], []⟩, ⟨200, [], []⟩, ⟨250, [⟨"E", some 300⟩], []⟩]
      = some { last_run := 250, claims := [⟨"E", some 300⟩], payouts := [],
               notified_expired_claims := ["E"] } ∧
    Claim.is_expired ⟨"E", some 300⟩ 400 = true ∧
    runSeq 30 30 none
        [⟨100, [⟨"E", some 150⟩], []⟩, ⟨200, [], []⟩, ⟨250, [⟨"E", some 300⟩], []⟩,
         ⟨400, [], []⟩]
      = [[], [Notif.expired_claim "E"], [], []] := by
  refine ⟨by decide, by decide, by decide, by decide, by decide⟩

/-- C3 (amended): Disappearance-as-expiry holds for ids not yet in the
notified set.  If the previous state stores claim E (stored ids
duplicate-free, and every stored claim with a null deadline already
notified, which guards the `TypeError` path), E's id is not in
`notified_expired_claims`, E is absent from the current fetch, and E's stored
deadline has passed, then detection succeeds and E appears in the
expired-claims bucket exactly once. -/
theorem C3_disappearance_as_expiry_amended (now : Int) (st : AgentState)
    (cur : List Claim) (E : Claim) (d : Int)
    (hmem : E ∈ st.claims)
    (hnodup : (st.claims.map Claim.claim_id).Nodup)
    (hnotif : E.claim_id ∉ st.notified_expired_claims)
    (habsent : E.claim_id ∉ cur.map Claim.claim_id)
    (hdl : E.filing_deadline = some d)
    (hexp : now > d)
    (hsafe : ∀ c ∈ st.claims, c.filing_deadline = none →
      c.claim_id ∈ st.notified_expired_claims) :
    ∃ l, detect_expired_claims now (some st) cur = .ok l ∧
      (l.map Claim.claim_id).count E.claim_id = 1 := by
  have hnoerr : ∀ c ∈ st.claims,
      prevStep now st.notified_expired_claims (cur.map Claim.claim_id) c
        ≠ .typeError := by
    intro c hc habs
    obtain ⟨hcon, hnone⟩ := (prevStep_eq_typeError_iff _ _ _ _).mp habs
    rw [(contains_mem_iff_CA _ _).mpr (hsafe c hc hnone)] at hcon
    cases hcon
  have hok := expiredFromPrev_ok_of_no_typeError now st.notified_expired_claims
    (cur.map Claim.claim_id) st.claims hnoerr
  have hdet : detect_expired_claims now (some st) cur
      = .ok (st.claims.filter
          (fun c => prevStep now st.notified_expired_claims
            (cur.map Claim.claim_id) c == .append)
        ++ cur.filter (currentCheck now st.notified_expired_claims st.claims)) := by
    rw [detect_expired_claims, hok]
    rfl
  refine ⟨_, hdet, ?_⟩
  rw [List.map_append, List.count_append]
  have happE : prevStep now st.notified_expired_claims
      (cur.map Claim.claim_id) E = .append := by
    rw [prevStep_eq_append_iff]
    exact ⟨(contains_false_iff_CA _ _).mpr hnotif,
      (contains_false_iff_CA _ _).mpr habsent,
      by simp [Claim.is_expired, hdl, hexp]⟩
  have hmemf : E ∈ st.claims.filter
      (fun c => prevStep now st.notified_expired_claims
        (cur.map Claim.claim_id) c == .append) :=
    List.mem_filter.mpr ⟨hmem, by simp [happE]⟩
  have h1le : ((st.claims.filter
      (fun c => prevStep now st.notified_expired_claims
        (cur.map Claim.claim_id) c == .append)).map Claim.claim_id).count
        E.claim_id ≤ 1 := by
    refine le_trans (List.Sublist.count_le ?_ E.claim_id)
      (List.nodup_iff_count_le_one.mp hnodup E.claim_id)
    exact (List.filter_sublist st.claims).map Claim.claim_id
  have h1ge : 0 < ((st.claims.filter
      (fun c => prevStep now st.notified_expired_claims
        (cur.map Claim.claim_id) c == .append)).map Claim.claim_id).count
        E.claim_id := by
    rw [List.count_pos_iff]
    exact List.mem_map_of_mem Claim.claim_id hmemf
  have h2 : ((cur.filter
      (currentCheck now st.notified_expired_claims st.claims)).map
        Claim.claim_id).count E.claim_id = 0 := by
    refine List.count_eq_zero.mpr ?_
    intro hin
    exact habsent
      (List.Sublist.mem hin ((List.filter_sublist cur).map Claim.claim_id))
  omega

/-- Witness for C3 (amended) at a concrete previous state and empty current
fetch, all hypotheses discharged. -/
theorem C3_disappearance_as_expiry_witness :
    ((⟨"E", some 50⟩ : Claim) ∈
        ({ last_run := 0, claims := [⟨"E", some 50⟩], payouts := [],
           notified_expired_claims := [] } : AgentState).claims) ∧
    ∃ l, detect_expired_claims 100
        (some { last_run := 0, claims := [⟨"E", some 50⟩], payouts := [],
                notified_expired_claims := [] }) [] = .ok l ∧
      (l.map Claim.claim_id).count (Claim.claim_id ⟨"E", some 50⟩) = 1 :=
  ⟨by decide,
    C3_disappearance_as_expiry_amended 100 _ [] ⟨"E", some 50⟩ 50 (by decide)
      (by decide) (by decide) (by decide) (by decide) (by decide) (by decide)⟩

/-- C6: The claim that an entity with a null expiration can never raise in
the boundary check is right in intent but the code has a slip:
`detect_expired_claims` compares `datetime.now() > prev_claim.filing_deadline`
without the `None` guard that `is_expired` itself applies, so a stored claim
with a null deadline (not yet notified) raises `TypeError`.  In
`StateManager.detect_changes`, where the guarded `is_expired` is used, such a
claim indeed never enters the expired bucket. -/
theorem C6_no_expiry_boundary_check :
    detect_expired_claims 100
        (some { last_run := 0, claims := [⟨"X", none⟩], payouts := [],
                notified_expired_claims := [] }) []
      = .error "TypeError: > not supported between datetime and NoneType" ∧
    (ActionClaims.detect_changes (fun _ => 100)
        { last_run := none,
          claims := [("X", ⟨"X", "X", none, []⟩)],
          previous_claims := [] }
        [⟨"X", "X", none, []⟩]).expired_claims = [] :=
  ⟨rfl, rfl⟩

/-- C10: Monotone notified-set bookkeeping.  The
`notified_expired_claims` list persisted by `save_current_state` extends the
loaded list: the loaded list is a prefix, the appended ids are pairwise
distinct and absent from the loaded list, and duplicate-freeness is
preserved; ids are never removed. -/
theorem C10_notified_bookkeeping_monotone (now : Int) (ps : Option AgentState)
    (claims : List Claim) (payouts : List Payout) (notifs : List Notif) :
    ∃ added : List String,
      (save_current_state now ps claims payouts notifs).notified_expired_claims
        = stateNotified ps ++ added ∧
      added.Nodup ∧ (∀ x ∈ added, x ∉ stateNotified ps) ∧
      ((stateNotified ps).Nodup →
        (save_current_state now ps claims payouts
          notifs).notified_expired_claims.Nodup) := by
  obtain ⟨s, hs, hnd, hdisj⟩ := addNotified_append_spec notifs (stateNotified ps)
  refine ⟨s, hs, hnd, hdisj, ?_⟩
  intro hnp
  show (addNotified (stateNotified ps) notifs).Nodup
  rw [hs]
  exact List.nodup_append.mpr ⟨hnp, hnd, fun a ha hb => hdisj a hb ha⟩

end ClassAction

namespace ActionClaims

theorem contains_eq_false_iff (l : List String) (a : String) :
    l.contains a = false ↔ a ∉ l := by
  rw [Bool.eq_false_iff]
  exact not_congr (contains_iff_mem l a)

/-- C2: First-run suppression.  With no previous snapshot (the empty state
substituted for a missing or unparseable file) and duplicate-free current
ids, `detect_changes` reports every current claim in `new_claims` and leaves
the expired and new-payout buckets empty regardless of any claim's expiry
state; likewise `ClassActionClaimsAgent.detect_expired_claims` returns the
empty list whenever `previous_state` is `None`. -/
theorem C2_first_run_suppression (clock : Nat → Int) (cur : List Claim)
    (now : Int) (ccs : List ClassAction.Claim)
    (h : (cur.map Claim.claim_id).Nodup) :
    detect_changes clock emptyManagerState cur
        = { new_claims := cur, expired_claims := [], new_payouts := [] } ∧
    ClassAction.detect_expired_claims now none ccs = .ok [] :=
  ⟨detect_changes_empty_prev clock cur h, rfl⟩

/-- Witness for C2 at a concrete two-claim fetch, one of them already past
its expiry, with the hypothesis discharged. -/
theorem C2_first_run_suppression_witness :
    ((([⟨"A", "A", some 30, []⟩, ⟨"B", "B", some (-5), []⟩] : List Claim).map
        Claim.claim_id).Nodup) ∧
    (detect_changes (fun _ => 0) emptyManagerState
        [⟨"A", "A", some 30, []⟩, ⟨"B", "B", some (-5), []⟩]
      = { new_claims := [⟨"A", "A", some 30, []⟩, ⟨"B", "B", some (-5), []⟩],
          expired_claims := [], new_payouts := [] } ∧
     ClassAction.detect_expired_claims 0 none [⟨"E", some (-1)⟩] = .ok []) :=
  ⟨by decide,
    C2_first_run_suppression (fun _ => 0) _ 0 [⟨"E", some (-1)⟩] (by decide)⟩

/-- C4 counterexample: a parent claim unseen before arrives with child payout
c1; `detect_changes` reports the parent under `new_claims` but reports none
of its children under `new_payouts`, contradicting the claim that a new
parent's children are all reported as new. -/
theorem C4_child_propagation_cex :
    (detect_changes (fun _ => 0) emptyManagerState
        [⟨"P", "P", none, [⟨"c1"⟩]⟩]).new_claims
      = [⟨"P", "P", none, [⟨"c1"⟩]⟩] ∧
    (detect_changes (fun _ => 0) emptyManagerState
        [⟨"P", "P", none, [⟨"c1"⟩]⟩]).new_payouts = [] := by
  exact ⟨by decide, by decide⟩

/-- C4 (amended): Child propagation holds only for parents already known.
With duplicate-free current ids, `new_payouts` holds exactly the pairs
`(parent, payout)` whose parent id was stored in the previous snapshot and
whose payout id was not among that stored copy's payout ids; a brand-new
parent's children are never reported (the parent itself appears under
`new_claims`), and adding one payout c3 to a known parent reports only c3. -/
theorem C4_child_propagation_amended (clock : Nat → Int) (st : ManagerState)
    (cur : List Claim) (cc : Claim) (p : Payout)
    (h : (cur.map Claim.claim_id).Nodup) :
    (cc, p) ∈ (detect_changes clock st cur).new_payouts ↔
      cc ∈ cur ∧ p ∈ cc.payouts ∧
      ∃ pc, (cc.claim_id, pc) ∈ st.claims ∧
        p.payout_id ∉ pc.payouts.map Payout.payout_id := by
  have hloop := mem_payouts_loop_iff clock (dictOfClaims cur) cc p st.claims 0
  have hnp : (detect_changes clock st cur).new_payouts
      = (expiredAndPayoutsLoop clock (dictOfClaims cur) st.claims 0).2 := rfl
  rw [hnp, hloop]
  constructor
  · rintro ⟨cid, pc, hmem, hget, hp, hnc⟩
    rw [dictGet_dictOfClaims cur h cid] at hget
    have hid : cc.claim_id = cid := by
      have := List.find?_some hget
      simpa using this
    have hcc : cc ∈ cur := List.mem_of_find?_eq_some hget
    refine ⟨hcc, hp, pc, ?_, ?_⟩
    · rw [hid]
      exact hmem
    · intro hcon
      rw [(contains_iff_mem _ _).mpr hcon] at hnc
      cases hnc
  · rintro ⟨hcc, hp, pc, hmem, hnc⟩
    refine ⟨cc.claim_id, pc, hmem, ?_, hp, ?_⟩
    · rw [dictGet_dictOfClaims cur h cc.claim_id]
      exact find?_id_of_nodup cur h cc hcc
    · exact (contains_eq_false_iff _ _).mpr hnc

/-- Witness for C4 (amended): a known parent gaining payout c3, with the
hypothesis discharged and the characterization instantiated. -/
theorem C4_child_propagation_witness :
    ((([⟨"P", "P", none, [⟨"c1"⟩, ⟨"c2"⟩, ⟨"c3"⟩]⟩] : List Claim).map
        Claim.claim_id).Nodup) ∧
    ((⟨"P", "P", none, [⟨"c1"⟩, ⟨"c2"⟩, ⟨"c3"⟩]⟩, (⟨"c3"⟩ : Payout)) ∈
        (detect_changes (fun _ => 0)
          { last_run := none,
            claims := [("P", ⟨"P", "P", none, [⟨"c1"⟩, ⟨"c2"⟩]⟩)],
            previous_claims := [] }
          [⟨"P", "P", none, [⟨"c1"⟩, ⟨"c2"⟩, ⟨"c3"⟩]⟩]).new_payouts ↔
      (⟨"P", "P", none, [⟨"c1"⟩, ⟨"c2"⟩, ⟨"c3"⟩]⟩ : Claim) ∈
          [(⟨"P", "P", none, [⟨"c1"⟩, ⟨"c2"⟩, ⟨"c3"⟩]⟩ : Claim)] ∧
        (⟨"c3"⟩ : Payout) ∈
          (⟨"P", "P", none, [⟨"c1"⟩, ⟨"c2"⟩, ⟨"c3"⟩]⟩ : Claim).payouts ∧
        ∃ pc, ((⟨"P", "P", none, [⟨"c1"⟩, ⟨"c2"⟩, ⟨"c3"⟩]⟩ : Claim).claim_id, pc)
            ∈ ({ last_run := none,
                 claims := [("P", ⟨"P", "P", none, [⟨"c1"⟩, ⟨"c2"⟩]⟩)],
                 previous_claims := [] } : ManagerState).claims ∧
          (⟨"c3"⟩ : Payout).payout_id ∉ pc.payouts.map Payout.payout_id) :=
  ⟨by decide,
    C4_child_propagation_amended (fun _ => 0) _ _ _ _ (by decide)⟩

/-- C5 counterexample: two clocks agreeing at reading 0 (the instant at the
start of `detect`) but diverging afterwards yield different change reports,
because `Claim.is_expired` re-reads `datetime.now()` at every call instead of
using a single captured `now`. -/
theorem C5_determinism_cex :
    (fun _ : Nat => (5 : Int)) 0 = (fun i : Nat => if i == 0 then (5 : Int) else 15) 0 ∧
    detect_changes (fun _ : Nat => (5 : Int))
        { last_run := none, claims := [("A", ⟨"A", "A", some 10, []⟩)],
          previous_claims := [] }
        [⟨"A", "A", some 10, []⟩]
      ≠ detect_changes (fun i : Nat => if i == 0 then (5 : Int) else 15)
        { last_run := none, claims := [("A", ⟨"A", "A", some 10, []⟩)],
          previous_claims := [] }
        [⟨"A", "A", some 10, []⟩] :=
  ⟨rfl, by decide⟩

/-- C5 (amended): Determinism holds under a constant clock.  When every
`datetime.now()` reading during `detect_changes` returns the same instant,
the report is a pure function of `(previous state, current claims, now)`, so
two invocations over the same data give byte-for-byte identical reports; the
code, however, re-reads the clock inside each `is_expired` call rather than
capturing a single `now` at the start. -/
theorem C5_determinism_amended (c1 c2 : Nat → Int) (now : Int)
    (h1 : ∀ i, c1 i = now) (h2 : ∀ i, c2 i = now)
    (st : ManagerState) (cur : List Claim) :
    detect_changes c1 st cur = detect_changes c2 st cur := by
  have hc : c1 = c2 := funext (fun i => (h1 i).trans (h2 i).symm)
  rw [hc]

/-- Witness for C5 (amended) at the constant clock 7 over a concrete state. -/
theorem C5_determinism_witness :
    (∀ i : Nat, (fun _ : Nat => (7 : Int)) i = 7) ∧
    detect_changes (fun _ : Nat => (7 : Int))
        { last_run := none, claims := [("A", ⟨"A", "A", some 10, []⟩)],
          previous_claims := [] }
        [⟨"A", "A", some 10, []⟩]
      = detect_changes (fun _ : Nat => (7 : Int))
        { last_run := none, claims := [("A", ⟨"A", "A", some 10, []⟩)],
          previous_claims := [] }
        [⟨"A", "A", some 10, []⟩] :=
  ⟨fun _ => rfl,
    C5_determinism_amended (fun _ => 7) (fun _ => 7) 7 (fun _ => rfl)
      (fun _ => rfl) _ _⟩

/-- C7: Load never raises for a missing or unparseable state file.  For the
three failure modes of the backing file (absent, unreadable, corrupt JSON)
`StateManager.load_state` returns the empty state (no claims, `last_run`
null) and `ClassActionClaimsAgent.load_previous_state` leaves
`previous_state = None`, whose notified set reads back empty, so both runs
proceed with first-run semantics. -/
theorem C7_load_never_raises (f : FileRead) (g : ClassAction.FileRead)
    (hf : f = .absent ∨ f = .ioError ∨ f = .badJson)
    (hg : g = .absent ∨ g = .ioError ∨ g = .badJson) :
    load_state f = emptyManagerState ∧
    (load_state f).claims = [] ∧ (load_state f).last_run = none ∧
    ClassAction.load_previous_state g = none ∧
    ClassAction.stateNotified (ClassAction.load_previous_state g) = [] := by
  rcases hf with rfl | rfl | rfl <;> rcases hg with rfl | rfl | rfl <;>
    exact ⟨rfl, rfl, rfl, rfl, rfl⟩

/-- Witness for C7 at a corrupt-JSON read on one store and an unreadable file
on the other. -/
theorem C7_load_never_raises_witness :
    (FileRead.badJson = FileRead.absent ∨ FileRead.badJson = FileRead.ioError ∨
      FileRead.badJson = FileRead.badJson) ∧
    (ClassAction.FileRead.ioError = ClassAction.FileRead.absent ∨
      ClassAction.FileRead.ioError = ClassAction.FileRead.ioError ∨
      ClassAction.FileRead.ioError = ClassAction.FileRead.badJson) ∧
    (load_state .badJson = emptyManagerState ∧
     (load_state .badJson).claims = [] ∧
     (load_state .badJson).last_run = none ∧
     ClassAction.load_previous_state .ioError = none ∧
     ClassAction.stateNotified (ClassAction.load_previous_state .ioError) = []) :=
  ⟨Or.inr (Or.inr rfl), Or.inr (Or.inl rfl),
    C7_load_never_raises .badJson .ioError (Or.inr (Or.inr rfl))
      (Or.inr (Or.inl rfl))⟩

/-- C8 counterexample: `ClassActionClaimsAgent.save_current_state` catches
`IOError` and only prints, so a failed state write returns normally to the
caller instead of raising, and the file keeps its old contents. -/
theorem C8_save_failure_cex :
    ClassAction.save_current_state_outcome .ioError none
        { last_run := 0, claims := [], payouts := [],
          notified_expired_claims := [] }
      = (Except.ok (), none) := rfl

/-- C8 (amended): Write-failure propagation differs between the two stores.
`StateManager.save_state` has no handler, so a failed write propagates the
`IOError` to the caller (and a successful write installs the new document
with the old claims demoted to `previous_claims`);
`ClassActionClaimsAgent.save_current_state` catches `IOError` and returns
normally either way, so that run continues after losing its state. -/
theorem C8_save_failure_propagation (now : Int) (st : ManagerState)
    (claims : List Claim) (f : Option ClassAction.AgentState)
    (s : ClassAction.AgentState) :
    save_state .ioError now st claims = .error "IOError" ∧
    save_state .success now st claims
      = .ok { last_run := some now, claims := dictOfClaims claims,
              previous_claims := st.claims } ∧
    ClassAction.save_current_state_outcome .ioError f s = (.ok (), f) ∧
    ClassAction.save_current_state_outcome .success f s = (.ok (), some s) :=
  ⟨rfl, rfl, rfl, rfl⟩

/-- C9 counterexample: a report whose only non-empty bucket is `new_claims`
is formatted as `(None, None)` and triggers no notification, contradicting
the claim that a pair is produced whenever any of the three buckets is
non-empty. -/
theorem C9_empty_report_cex :
    format_changes_notification
        { new_claims := [⟨"N", "New", none, []⟩], expired_claims := [],
          new_payouts := [] }
      = (none, none) ∧
    ({ new_claims := [⟨"N", "New", none, []⟩], expired_claims := [],
       new_payouts := [] } : Changes).new_claims ≠ [] ∧
    run_sends_notification
        { new_claims := [⟨"N", "New", none, []⟩], expired_claims := [],
          new_payouts := [] }
      = false :=
  ⟨rfl, by decide, rfl⟩

/-- C9 (amended): Empty-report suppression counts only two buckets.
`format_changes_notification` returns `(None, None)` exactly when the
expired-claims and new-payouts buckets are both empty -- the `new_claims`
bucket is never counted -- and `ActionClaimsAgent.run` dispatches a
notification exactly when one of those two buckets is non-empty; in
particular an all-empty report never produces a notification. -/
theorem C9_empty_report_suppression (changes : Changes) :
    (((format_changes_notification changes).1 = none ∧
      (format_changes_notification changes).2 = none) ↔
      (changes.expired_claims = [] ∧ changes.new_payouts = [])) ∧
    (run_sends_notification changes = false ↔
      (changes.expired_claims = [] ∧ changes.new_payouts = [])) := by
  obtain ⟨nc, ec, np⟩ := changes
  unfold format_changes_notification run_sends_notification
  cases ec <;> cases np <;> simp

end ActionClaims
